import Mathlib

/-!
Verification of the litex-buildenv board/SoC configuration code:
`src/targets/sim/net.py` (class `NetSoC`) and `src/platforms/mars_ax3.py`
(the `_io` pin table and `Platform.create_programmer`).

The Python code is shallowly embedded: Python strings are Lean `String`s,
Python `str.split`, `str.strip`, `str.upper` and the `int(...)` conversion
are modelled character-by-character below, and the registration calls the
SoC constructor makes against the external framework (`add_csr`,
`add_wb_slave`, `add_memory_region`, `add_interupt`, `add_constant`) are
modelled as appending a record to the corresponding registry list of an
explicit SoC state.
-/

namespace Py

/-- Model of Python `str.split(sep)` for a single-character separator
(as used by `iprange.split(".")` and `self.device.split('-')`):
splits on every occurrence, keeping empty pieces, and always returns at
least one (possibly empty) piece. -/
def splitGo (sep : Char) : List Char → List Char → List String
  | [], acc => [String.mk acc.reverse]
  | c :: rest, acc =>
    if c = sep then String.mk acc.reverse :: splitGo sep rest []
    else splitGo sep rest (c :: acc)

/-- Python `s.split(sep)` for a one-character `sep`. -/
def split (sep : Char) (s : String) : List String :=
  splitGo sep s.data []

/-- Model of the whitespace stripping Python `int(...)` performs on its
string argument before parsing. -/
def strip (s : String) : String :=
  String.mk ((s.data.dropWhile Char.isWhitespace).reverse.dropWhile Char.isWhitespace).reverse

/-- Decimal digits to the natural number they denote (most significant first). -/
def digitsToNat (l : List Char) : Nat :=
  l.foldl (fun a c => a * 10 + (c.toNat - 48)) 0

/-- Model of Python `int(string)`: optional surrounding whitespace, an
optional single `+`/`-` sign, then one or more decimal digits; anything
else raises `ValueError`, modelled as `none`.  (Python additionally
accepts `_` digit grouping and non-ASCII decimal digits; those exotic
forms are not modelled.) -/
def pyInt (s : String) : Option Int :=
  match (strip s).data with
  | [] => none
  | '-' :: rest =>
    if !rest.isEmpty && rest.all Char.isDigit then some (-(digitsToNat rest : Int)) else none
  | '+' :: rest =>
    if !rest.isEmpty && rest.all Char.isDigit then some ((digitsToNat rest : Int)) else none
  | l =>
    if l.all Char.isDigit then some ((digitsToNat l : Int)) else none

/-- Model of Python `str.upper()` (ASCII case mapping, via `Char.toUpper`,
which uppercases exactly the codepoints 97–122). -/
def upper (s : String) : String :=
  String.mk (s.data.map Char.toUpper)

/-- A string is uppercase when it contains no lowercase ASCII letter
(codepoints 97–122). -/
def isUpperStr (s : String) : Bool :=
  s.data.all fun c => !(decide (97 ≤ c.toNat) && decide (c.toNat ≤ 122))

/-- Python `[int(x) for x in l]`: the whole comprehension raises
(`none`) as soon as one element fails to parse. -/
def intList : List String → Option (List Int)
  | [] => some []
  | x :: xs =>
    match pyInt x, intList xs with
    | some v, some vs => some (v :: vs)
    | _, _ => none

end Py

/-! ## `src/targets/sim/net.py` -/

namespace Net

/-- The registries of the SoC object under construction.  Each framework
registration call appends one record, so list order is registration
order. -/
structure SoCState where
  /-- Size of the integrated ROM allocated by the base SoC constructor. -/
  integrated_rom_size : Nat
  /-- Submodule names, in creation order. -/
  submodules : List String
  /-- Records of `add_csr` registrations: (name, csr_id). -/
  csrs : List (String × Nat)
  /-- Records of `add_wb_slave` registrations: (address, bus owner name). -/
  wb_slaves : List (Nat × String)
  /-- Records of `add_memory_region` registrations: (name, base, size, type). -/
  mem_regions : List (String × Nat × Nat × String)
  /-- Records of `add_interupt` registrations. -/
  interrupts : List String
  /-- Records of `add_constant` registrations: (name, value). -/
  constants : List (String × Int)
deriving Repr, DecidableEq

def add_csr (s : SoCState) (name : String) (csr_id : Nat) : SoCState :=
  { s with csrs := s.csrs ++ [(name, csr_id)] }

def add_wb_slave (s : SoCState) (address : Nat) (bus : String) : SoCState :=
  { s with wb_slaves := s.wb_slaves ++ [(address, bus)] }

def add_memory_region (s : SoCState) (name : String) (base size : Nat) (ty : String) :
    SoCState :=
  { s with mem_regions := s.mem_regions ++ [(name, base, size, ty)] }

def add_interupt (s : SoCState) (name : String) : SoCState :=
  { s with interrupts := s.interrupts ++ [name] }

def add_constant (s : SoCState) (name : String) (value : Int) : SoCState :=
  { s with constants := s.constants ++ [(name, value)] }

def add_submodule (s : SoCState) (name : String) : SoCState :=
  { s with submodules := s.submodules ++ [name] }

/-- Modelled from the spec: `dict_set_max` (defined in `targets/utils.py`,
which is not part of the given sources) merges the caller-supplied
`integrated_rom_size` keyword with the given value by taking the maximum,
installing the value itself when the keyword is absent ("Raises the
reserved boot-ROM size to at least a fixed threshold (merging with any
caller-supplied value by taking the maximum)"). -/
def dict_set_max (kwarg : Option Nat) (value : Nat) : Nat :=
  match kwarg with
  | some v => max v value
  | none => value

/-- Modelled from the spec: `BaseSoC.__init__` (defined in
`targets/sim/base.py`, which is not part of the given sources) allocates
the integrated ROM with the size passed in the keyword arguments; its
other registrations are not described by the spec, so they are abstracted
as the pre-existing registries `base` it contributes. -/
def BaseSoC_init (rom_size : Nat) (base : SoCState) : SoCState :=
  { base with integrated_rom_size := rom_size }

/-- A string-keyed dictionary with Python update semantics: `merge a b`
is `{**a, **b}`, entries of `b` overriding those of `a`. -/
def dictLookup (d : List (String × Nat)) (k : String) : Option Nat :=
  match d with
  | [] => none
  | (k', v) :: rest => match dictLookup rest k with
    | some v' => some v'
    | none => if k = k' then some v else none

/-- Model of `NetSoC.mem_map`, the class-level dict merge of the base
memory map with the single override entry "ethmac" at 0xb0000000.
(The source spells the first operand `SoCSDRAM`, a name it never imports
— evidently intended as the base class's `mem_map`; it is kept abstract
here as `base`.)  The lookup of `"ethmac"` is `0xb0000000` whatever the
base map holds, because the right-hand dict overrides. -/
def mem_map (base : List (String × Nat)) : List (String × Nat) :=
  base ++ [("ethmac", 0xb0000000)]

/-- Model of `NetSoC.__init__`, lines 15–29 of `net.py`: bump
`integrated_rom_size` to at least 0x10000 *in the kwargs*, run the base
constructor on the adjusted kwargs, then create/register the Ethernet
PHY and MAC. -/
def NetSoC_init (baseMemMap : List (String × Nat)) (integrated_rom_size : Option Nat)
    (base : SoCState) : SoCState :=
  let rom := dict_set_max integrated_rom_size 0x10000
  let s := BaseSoC_init rom base
  let s := add_submodule s "ethphy"
  let s := add_csr s "ethphy" 18
  let s := add_submodule s "ethmac"
  let s := add_wb_slave s ((dictLookup (mem_map baseMemMap) "ethmac").getD 0) "ethmac"
  let s := add_csr s "ethmac" 19
  let s := add_memory_region s "ethmac" ((dictLookup (mem_map baseMemMap) "ethmac").getD 0)
    0x2000 "io"
  add_interupt s "ethmac"

/-- One test-and-append step of the `while len(iprange) < 4:
iprange.append(0)` loop, iterated a fixed four times: each pass through
the loop body appends exactly one element, so four iterations reach the
loop's exit condition from any starting list. -/
def padStep (l : List Int) : List Int :=
  if l.length < 4 then l ++ [0] else l

/-- The `while len(iprange) < 4: iprange.append(0)` loop. -/
def padTo4 (l : List Int) : List Int :=
  padStep (padStep (padStep (padStep l)))

/-- The loop body of `NetSoC._configure_ip` with the running
`enumerate` counter made explicit: emits
`(ip_type + str(i+1)).upper()` ↦ element, one `add_constant` per element. -/
def configure_ip_go (ip_type : String) (i : Nat) : List Int → List (String × Int)
  | [] => []
  | e :: rest => (Py.upper (ip_type ++ toString (i + 1)), e) :: configure_ip_go ip_type (i + 1) rest

/-- Model of `NetSoC._configure_ip`: the list of constants it registers, in order. -/
def _configure_ip (ip_type : String) (ip : List Int) : List (String × Int) :=
  configure_ip_go ip_type 0 ip

/-- The constants emitted for a parsed octet list: `LOCALIP*` from
`iprange[:-1] + [50]`, then `REMOTEIP*` from `iprange[:-1] + [100]`. -/
def emitted (vals : List Int) : List (String × Int) :=
  _configure_ip "LOCALIP" ((padTo4 vals).dropLast ++ [50]) ++
    _configure_ip "REMOTEIP" ((padTo4 vals).dropLast ++ [100])

/-- Model of `NetSoC.configure_iprange`: parse every dot-separated component with
`int(...)` (a failure propagates, `none`, and then nothing is emitted),
pad with zeros to four components, and register the `LOCALIP*` and
`REMOTEIP*` constants.  Returns the list of `add_constant` registrations
performed by the call. -/
def configure_iprange (iprange : String) : Option (List (String × Int)) :=
  match Py.intList (Py.split '.' iprange) with
  | none => none
  | some vals => some (emitted vals)

end Net

/-! ## `src/platforms/mars_ax3.py` -/

namespace MarsAx3

/-- The three programmer backends `create_programmer` can construct,
with the parameters the source passes to them. -/
inductive ProgrammerBackend where
  /-- An `OpenOCD(config=..., flash_proxy_basename=...)` backend. -/
  | openocd (config : String) (flash_proxy_basename : String)
  /-- An `XC3SProg(cable)` backend. -/
  | xc3sprog (cable : String)
  /-- A `VivadoProgrammer(flash_part=...)` backend. -/
  | vivado (flash_part : String)
deriving Repr, DecidableEq

/-- The FPGA device identifier passed to `XilinxPlatform.__init__`. -/
def device : String := "xc7a35t-csg324-1"

/-- Model of `Platform.create_programmer`, lines 117–128: dispatch on the
`programmer` string selected at construction; any unknown selector
raises a `ValueError` whose message is the selector followed by
`" programmer is not supported"`,
modelled as `Except.error` carrying the formatted message. -/
def create_programmer (programmer : String) : Except String ProgrammerBackend :=
  if programmer = "openocd" then
    Except.ok (ProgrammerBackend.openocd "~/nmigen_test/digilent-hs2.cfg"
      ("bscan_spi_" ++ (Py.split '-' device).headD "" ++ ".bit"))
  else if programmer = "xc3sprog" then
    Except.ok (ProgrammerBackend.xc3sprog "nexys4")
  else if programmer = "vivado" then
    Except.ok (ProgrammerBackend.vivado "n25q128-3.3v-spi-x1_x2_x4")
  else
    Except.error (programmer ++ " programmer is not supported")

/-- A selector is supported when `create_programmer` returns a backend
rather than raising. -/
def isSupported (programmer : String) : Bool :=
  match create_programmer programmer with
  | Except.ok _ => true
  | Except.error _ => false

/-- One pin binding of the `_io` table: signal name, index, and its
(sub-signal name, pin locations) groups — a direct `Pins(...)` argument
is recorded under the sub-signal name `""`.  The electrical directives
(`IOStandard`, `Misc`) are not part of any claim and are not modelled. -/
abbrev Binding := String × Nat × List (String × List String)

/-- The `_io` table of `mars_ax3.py`, lines 8–80. -/
def _io : List Binding := [
  ("user_led", 0, [("", ["M16"])]),
  ("user_led", 1, [("", ["M17"])]),
  ("user_led", 2, [("", ["L18"])]),
  ("user_led", 3, [("", ["M18"])]),
  ("clk50", 0, [("", ["P17"])]),
  ("cpu_reset", 0, [("", ["C2"])]),
  ("serial", 0, [("tx", ["U13"]), ("rx", ["U11"])]),
  ("spiflash_4x", 0, [("cs_n", ["L13"]), ("dq", ["K17", "K18", "L14", "M14"])]),
  ("spiflash_1x", 0, [("cs_n", ["L13"]), ("mosi", ["K17"]), ("miso", ["K18"]),
    ("wp", ["L14"]), ("hold", ["M14"])]),
  ("ddram", 0, [
    ("a", ["J17", "J14", "J18", "D18", "J13", "E17", "K13", "E18",
      "H17", "F18", "G16", "G18", "H16", "G17", "H15"]),
    ("ba", ["D17", "H14", "K15"]),
    ("ras_n", ["F15"]),
    ("cas_n", ["F16"]),
    ("we_n", ["J15"]),
    ("dm", ["D15", "D12"]),
    ("dq", ["A18", "E16", "A15", "E15", "B18", "B17", "A16", "B16",
      "B14", "C14", "B13", "D14", "F13", "A11", "F14", "B11"]),
    ("dqs_p", ["A13", "C12"]),
    ("dqs_n", ["A14", "B12"]),
    ("clk_p", ["C16"]),
    ("clk_n", ["C17"]),
    ("cke", ["G14"]),
    ("odt", ["K16"]),
    ("reset_n", ["G13"]),
    ("ddr3_vsel", ["D9"])])]

/-- All physical pin locations a binding uses, across its sub-signals. -/
def bindingPins (b : Binding) : List String :=
  (b.2.2.map Prod.snd).foldr (· ++ ·) []

/-- Two pin sets are disjoint when no location of the first occurs in
the second. -/
def pinsDisjoint (a b : List String) : Bool :=
  a.all fun p => !(b.contains p)

end MarsAx3

namespace Py

theorem char_toNat_ofNat (n : Nat) (h : n.isValidChar) : (Char.ofNat n).toNat = n := by
  rw [Char.ofNat, dif_pos h]
  rfl

theorem toUpper_not_lowercase (c : Char) :
    ¬(97 ≤ c.toUpper.toNat ∧ c.toUpper.toNat ≤ 122) := by
  unfold Char.toUpper
  simp only [ge_iff_le]
  by_cases h : 97 ≤ c.toNat ∧ c.toNat ≤ 122
  · rw [if_pos h]
    have hv : (Char.toNat c - 32).isValidChar := by
      left
      omega
    rw [char_toNat_ofNat _ hv]
    omega
  · rw [if_neg h]
    omega

theorem isUpperStr_upper (s : String) : isUpperStr (upper s) = true := by
  simp only [isUpperStr, upper, List.all_eq_true]
  intro c hc
  simp only [List.mem_map] at hc
  obtain ⟨d, _, rfl⟩ := hc
  have := toUpper_not_lowercase d
  simp only [Bool.not_eq_true', Bool.and_eq_false_iff, decide_eq_false_iff_not]
  omega

theorem intList_length : ∀ {xs : List String} {vs : List Int},
    intList xs = some vs → vs.length = xs.length := by
  intro xs
  induction xs with
  | nil => intro vs h; simp [intList] at h; simp [← h]
  | cons x xs ih =>
    intro vs h
    simp only [intList] at h
    cases hx : pyInt x with
    | none => rw [hx] at h; simp at h
    | some v =>
      rw [hx] at h
      cases hxs : intList xs with
      | none => rw [hxs] at h; simp at h
      | some vs' =>
        rw [hxs] at h
        simp at h
        subst h
        simp [ih hxs]

theorem intList_none_of_mem {xs : List String} {x : String}
    (hmem : x ∈ xs) (hbad : pyInt x = none) : intList xs = none := by
  induction xs with
  | nil => cases hmem
  | cons y ys ih =>
    simp only [intList]
    rcases List.mem_cons.mp hmem with rfl | hmem'
    · rw [hbad]
    · rw [ih hmem']
      cases pyInt y <;> rfl

end Py

namespace Net

theorem padStep_of_ge (l : List Int) (h : ¬ l.length < 4) : padStep l = l := by
  simp [padStep, h]

theorem padTo4_eq (l : List Int) : padTo4 l = l ++ List.replicate (4 - l.length) 0 := by
  match l with
  | [] => rfl
  | [a] => rfl
  | [a, b] => rfl
  | [a, b, c] => rfl
  | a :: b :: c :: d :: rest =>
    have h4 : ¬ (a :: b :: c :: d :: rest).length < 4 := by
      simp only [List.length_cons]
      omega
    have hz : 4 - (a :: b :: c :: d :: rest).length = 0 := by
      simp only [List.length_cons]
      omega
    rw [padTo4, padStep_of_ge _ h4, padStep_of_ge _ h4, padStep_of_ge _ h4,
      padStep_of_ge _ h4, hz]
    simp

theorem length_padTo4 (l : List Int) : (padTo4 l).length = max l.length 4 := by
  rw [padTo4_eq]
  simp only [List.length_append, List.length_replicate]
  omega

theorem configure_ip_go_length (t : String) (i : Nat) (l : List Int) :
    (configure_ip_go t i l).length = l.length := by
  induction l generalizing i with
  | nil => rfl
  | cons e rest ih => simp [configure_ip_go, ih]

theorem configure_ip_go_getElem? (t : String) (i k : Nat) (l : List Int) :
    (configure_ip_go t i l)[k]? =
      (l[k]?).map fun v => (Py.upper (t ++ toString (i + k + 1)), v) := by
  induction l generalizing i k with
  | nil => simp [configure_ip_go]
  | cons e rest ih =>
    cases k with
    | zero => simp [configure_ip_go]
    | succ k' =>
      simp only [configure_ip_go, List.getElem?_cons_succ, ih]
      have : i + 1 + k' + 1 = i + (k' + 1) + 1 := by omega
      rw [this]

theorem mem_configure_ip_go (t : String) (i : Nat) (l : List Int) (p : String × Int)
    (hp : p ∈ configure_ip_go t i l) : Py.isUpperStr p.1 = true := by
  induction l generalizing i with
  | nil => cases hp
  | cons e rest ih =>
    rcases List.mem_cons.mp hp with rfl | h'
    · exact Py.isUpperStr_upper _
    · exact ih _ h'

theorem dictLookup_append_last (m : List (String × Nat)) (key : String) (v : Nat) :
    dictLookup (m ++ [(key, v)]) key = some v := by
  induction m with
  | nil => simp [dictLookup]
  | cons kv rest ih => simp [dictLookup, ih]

end Net

/-- C1: for `"10.0.1"` the derived addresses are 10.0.1.50 (local) and
10.0.1.100 (remote); for `"10.0.1.5"` no padding occurs and the supplied
last octet is ignored, the derived last octets again being 50 and 100. -/
theorem C1_configure_iprange_examples :
    Net.configure_iprange "10.0.1" =
      some [("LOCALIP1", 10), ("LOCALIP2", 0), ("LOCALIP3", 1), ("LOCALIP4", 50),
        ("REMOTEIP1", 10), ("REMOTEIP2", 0), ("REMOTEIP3", 1), ("REMOTEIP4", 100)] ∧
    Net.configure_iprange "10.0.1.5" =
      some [("LOCALIP1", 10), ("LOCALIP2", 0), ("LOCALIP3", 1), ("LOCALIP4", 50),
        ("REMOTEIP1", 10), ("REMOTEIP2", 0), ("REMOTEIP3", 1), ("REMOTEIP4", 100)] := by
  exact ⟨by decide, by decide⟩

/-- C2: after `NetSoC` construction the integrated ROM size is the
maximum of the caller-supplied `integrated_rom_size` and 0x10000, never
less, and the base constructor already receives the adjusted size. -/
theorem C2_rom_size (m : List (String × Nat)) (k : Nat) (base : Net.SoCState) :
    (Net.NetSoC_init m (some k) base).integrated_rom_size = max k 0x10000 ∧
    (Net.BaseSoC_init (Net.dict_set_max (some k) 0x10000) base).integrated_rom_size =
      max k 0x10000 ∧
    ∀ kw : Option Nat, 0x10000 ≤ (Net.NetSoC_init m kw base).integrated_rom_size := by
  refine ⟨?_, ?_, ?_⟩
  · simp [Net.NetSoC_init, Net.BaseSoC_init, Net.dict_set_max, Net.add_submodule,
      Net.add_csr, Net.add_wb_slave, Net.add_memory_region, Net.add_interupt]
  · simp [Net.BaseSoC_init, Net.dict_set_max]
  · intro kw
    cases kw <;>
      simp [Net.NetSoC_init, Net.BaseSoC_init, Net.dict_set_max, Net.add_submodule,
        Net.add_csr, Net.add_wb_slave, Net.add_memory_region, Net.add_interupt]

/-- C5: construction registers the PHY CSR at index 18 and the MAC CSR
at index 19, the PHY first. -/
theorem C5_csr_registration (m : List (String × Nat)) (kw : Option Nat)
    (base : Net.SoCState) :
    (Net.NetSoC_init m kw base).csrs = base.csrs ++ [("ethphy", 18), ("ethmac", 19)] := by
  simp [Net.NetSoC_init, Net.BaseSoC_init, Net.add_submodule, Net.add_csr,
    Net.add_wb_slave, Net.add_memory_region, Net.add_interupt]

/-- C6: the MAC memory region is 0x2000 bytes of kind "io" based at the
`ethmac` entry of the merged memory map (0xb0000000), a bus slave window
is added at that same address, and an `ethmac` interrupt is registered. -/
theorem C6_ethmac_region (m : List (String × Nat)) (kw : Option Nat)
    (base : Net.SoCState) :
    Net.dictLookup (Net.mem_map m) "ethmac" = some 0xb0000000 ∧
    (Net.NetSoC_init m kw base).mem_regions =
      base.mem_regions ++ [("ethmac", 0xb0000000, 0x2000, "io")] ∧
    (Net.NetSoC_init m kw base).wb_slaves = base.wb_slaves ++ [(0xb0000000, "ethmac")] ∧
    (Net.NetSoC_init m kw base).interrupts = base.interrupts ++ ["ethmac"] := by
  have hlk : Net.dictLookup (Net.mem_map m) "ethmac" = some 0xb0000000 :=
    Net.dictLookup_append_last m "ethmac" 0xb0000000
  refine ⟨hlk, ?_, ?_, ?_⟩ <;>
    simp [Net.NetSoC_init, Net.BaseSoC_init, hlk, Net.add_submodule, Net.add_csr,
      Net.add_wb_slave, Net.add_memory_region, Net.add_interupt]

namespace MarsAx3

theorem isSupported_iff (s : String) :
    isSupported s = true ↔ s = "openocd" ∨ s = "xc3sprog" ∨ s = "vivado" := by
  unfold isSupported create_programmer
  by_cases h1 : s = "openocd" <;> by_cases h2 : s = "xc3sprog" <;>
    by_cases h3 : s = "vivado" <;> simp [h1, h2, h3]

end MarsAx3

/-- C3 counterexample: there are no four pairwise-distinct supported
programmer selector values — `create_programmer` succeeds on exactly
three selectors. -/
theorem C3_counterexample :
    ¬ ∃ a b c d : String, [a, b, c, d].Nodup ∧
      MarsAx3.isSupported a = true ∧ MarsAx3.isSupported b = true ∧
      MarsAx3.isSupported c = true ∧ MarsAx3.isSupported d = true := by
  rintro ⟨a, b, c, d, hnd, ha, hb, hc, hd⟩
  rw [MarsAx3.isSupported_iff] at ha hb hc hd
  simp only [List.nodup_cons, List.mem_cons, List.not_mem_nil, or_false,
    List.nodup_nil, and_true, not_or] at hnd
  rcases ha with rfl | rfl | rfl <;> rcases hb with rfl | rfl | rfl <;>
    rcases hc with rfl | rfl | rfl <;> rcases hd with rfl | rfl | rfl <;> simp_all

/-- C3 (amended to three selectors): for the three supported programmer
selector values `create_programmer` returns pairwise-distinct, correctly
parameterized backends, and for any other selector it raises
`ValueError` with the unsupported-option message. -/
theorem C3_amended_three_programmers :
    (Except.ok (MarsAx3.ProgrammerBackend.openocd "~/nmigen_test/digilent-hs2.cfg"
        "bscan_spi_xc7a35t.bit") = MarsAx3.create_programmer "openocd" ∧
      Except.ok (MarsAx3.ProgrammerBackend.xc3sprog "nexys4") =
        MarsAx3.create_programmer "xc3sprog" ∧
      Except.ok (MarsAx3.ProgrammerBackend.vivado "n25q128-3.3v-spi-x1_x2_x4") =
        MarsAx3.create_programmer "vivado" ∧
      (MarsAx3.ProgrammerBackend.openocd "~/nmigen_test/digilent-hs2.cfg"
        "bscan_spi_xc7a35t.bit" ≠ MarsAx3.ProgrammerBackend.xc3sprog "nexys4") ∧
      (MarsAx3.ProgrammerBackend.openocd "~/nmigen_test/digilent-hs2.cfg"
        "bscan_spi_xc7a35t.bit" ≠ MarsAx3.ProgrammerBackend.vivado "n25q128-3.3v-spi-x1_x2_x4") ∧
      (MarsAx3.ProgrammerBackend.xc3sprog "nexys4" ≠
        MarsAx3.ProgrammerBackend.vivado "n25q128-3.3v-spi-x1_x2_x4")) ∧
    ∀ s : String, s ≠ "openocd" → s ≠ "xc3sprog" → s ≠ "vivado" →
      MarsAx3.create_programmer s = Except.error (s ++ " programmer is not supported") := by
  refine ⟨by exact ⟨by rfl, by rfl, by rfl, by decide, by decide, by decide⟩, ?_⟩
  intro s h1 h2 h3
  simp [MarsAx3.create_programmer, h1, h2, h3]

/-- C3 witness: the amended theorem applied at the concrete unsupported
selector `"usbblaster"`. -/
theorem C3_witness :
    MarsAx3.create_programmer "usbblaster" =
      Except.error ("usbblaster" ++ " programmer is not supported") :=
  C3_amended_three_programmers.2 "usbblaster" (by decide) (by decide) (by decide)

/-- C4: `create_programmer` maps "openocd" to an OpenOCD backend whose
flash-proxy bitstream name is derived from the device identifier's
family prefix (the part before the first '-', i.e. "xc7a35t", giving
"bscan_spi_xc7a35t.bit"), "xc3sprog" to an XC3SProg backend, "vivado" to
a VivadoProgrammer with a flash part number, and raises ValueError on
every other selector. -/
theorem C4_create_programmer_mapping :
    (Py.split '-' MarsAx3.device).headD "" = "xc7a35t" ∧
    MarsAx3.create_programmer "openocd" =
      Except.ok (MarsAx3.ProgrammerBackend.openocd "~/nmigen_test/digilent-hs2.cfg"
        ("bscan_spi_" ++ "xc7a35t" ++ ".bit")) ∧
    MarsAx3.create_programmer "xc3sprog" =
      Except.ok (MarsAx3.ProgrammerBackend.xc3sprog "nexys4") ∧
    MarsAx3.create_programmer "vivado" =
      Except.ok (MarsAx3.ProgrammerBackend.vivado "n25q128-3.3v-spi-x1_x2_x4") ∧
    ∀ s : String, s ≠ "openocd" → s ≠ "xc3sprog" → s ≠ "vivado" →
      MarsAx3.create_programmer s = Except.error (s ++ " programmer is not supported") := by
  refine ⟨by rfl, by rfl, by rfl, by rfl, ?_⟩
  intro s h1 h2 h3
  simp [MarsAx3.create_programmer, h1, h2, h3]

/-- C4 witness: the mapping theorem applied at the concrete unsupported
selector `"impact"`. -/
theorem C4_witness :
    MarsAx3.create_programmer "impact" =
      Except.error ("impact" ++ " programmer is not supported") :=
  C4_create_programmer_mapping.2.2.2.2 "impact" (by decide) (by decide) (by decide)

/-- C8: any component of the dotted string that `int(...)` rejects makes
`configure_iprange` propagate the parse failure, and then no constant at
all is emitted by the call. -/
theorem C8_parse_error_propagates (s comp : String)
    (hmem : comp ∈ Py.split '.' s) (hbad : Py.pyInt comp = none) :
    Net.configure_iprange s = none := by
  unfold Net.configure_iprange
  rw [Py.intList_none_of_mem hmem hbad]

/-- C8 witness: the component `"x"` of `"10.x.1"` fails integer
conversion, so the whole call fails and emits nothing. -/
theorem C8_witness : Net.configure_iprange "10.x.1" = none :=
  C8_parse_error_propagates "10.x.1" "x" (by decide) (by decide)

theorem exists_four_of_length_eq_four {α : Type} {l : List α} (h : l.length = 4) :
    ∃ a b c d, l = [a, b, c, d] :=
  match l, h with
  | [a, b, c, d], _ => ⟨a, b, c, d, rfl⟩

/-- C7 counterexample: `configure_iprange` accepts the five-component
input `"1.2.3.4.5"` and emits 10 constants, including `LOCALIP5` and
`REMOTEIP5` — not exactly 8. -/
theorem C7_counterexample :
    (Net.configure_iprange "1.2.3.4.5").map List.length = some 10 ∧
    (Net.configure_iprange "1.2.3.4.5").map (List.map Prod.fst) =
      some ["LOCALIP1", "LOCALIP2", "LOCALIP3", "LOCALIP4", "LOCALIP5",
        "REMOTEIP1", "REMOTEIP2", "REMOTEIP3", "REMOTEIP4", "REMOTEIP5"] := by
  exact ⟨by decide, by decide⟩

/-- C7 (amended): every constant name emitted by an accepted call is
uppercase, and when the input has at most four dot-separated components
the call emits exactly the 8 constants `LOCALIP1..4`, `REMOTEIP1..4`. -/
theorem C7_amended_constants (s : String) (out : List (String × Int))
    (h : Net.configure_iprange s = some out) :
    (∀ p ∈ out, Py.isUpperStr p.1 = true) ∧
    ((Py.split '.' s).length ≤ 4 →
      out.map Prod.fst = ["LOCALIP1", "LOCALIP2", "LOCALIP3", "LOCALIP4",
        "REMOTEIP1", "REMOTEIP2", "REMOTEIP3", "REMOTEIP4"] ∧ out.length = 8) := by
  unfold Net.configure_iprange at h
  cases hv : Py.intList (Py.split '.' s) with
  | none => rw [hv] at h; cases h
  | some vals =>
    rw [hv] at h
    have hout : out = Net.emitted vals := (Option.some.inj h).symm
    subst hout
    constructor
    · intro p hp
      rcases List.mem_append.mp hp with h' | h'
      · exact Net.mem_configure_ip_go _ _ _ _ h'
      · exact Net.mem_configure_ip_go _ _ _ _ h'
    · intro hlen
      have hvl : vals.length ≤ 4 := by
        rw [Py.intList_length hv]
        exact hlen
      have h4 : (Net.padTo4 vals).length = 4 := by
        rw [Net.length_padTo4]
        omega
      obtain ⟨a, b, c, d, habcd⟩ := exists_four_of_length_eq_four h4
      constructor
      · simp [Net.emitted, habcd, Net._configure_ip, Net.configure_ip_go]
        exact ⟨by decide, by decide, by decide, by decide, by decide, by decide,
          by decide, by decide⟩
      · simp [Net.emitted, habcd, Net._configure_ip, Net.configure_ip_go]

/-- C7 witness: the amended theorem at the three-component input
`"192.168.100"`, giving exactly the 8 uppercase names. -/
theorem C7_witness :
    [("LOCALIP1", (192 : Int)), ("LOCALIP2", 168), ("LOCALIP3", 100), ("LOCALIP4", 50),
        ("REMOTEIP1", 192), ("REMOTEIP2", 168), ("REMOTEIP3", 100),
        ("REMOTEIP4", 100)].map Prod.fst =
      ["LOCALIP1", "LOCALIP2", "LOCALIP3", "LOCALIP4",
        "REMOTEIP1", "REMOTEIP2", "REMOTEIP3", "REMOTEIP4"] ∧
    ([("LOCALIP1", (192 : Int)), ("LOCALIP2", 168), ("LOCALIP3", 100), ("LOCALIP4", 50),
        ("REMOTEIP1", 192), ("REMOTEIP2", 168), ("REMOTEIP3", 100),
        ("REMOTEIP4", 100)] : List (String × Int)).length = 8 :=
  (C7_amended_constants "192.168.100" _ (by decide)).2 (by decide)

/-- C9 counterexample: the distinct bindings `("spiflash_4x", 0)` (table
entry 7) and `("spiflash_1x", 0)` (table entry 8) both use pin location
"L13" (indeed all five of their pins), so their pin sets are not
disjoint. -/
theorem C9_counterexample :
    MarsAx3._io.length = 10 ∧
    (MarsAx3._io.getD 7 default).1 = "spiflash_4x" ∧
    (MarsAx3._io.getD 8 default).1 = "spiflash_1x" ∧
    MarsAx3.pinsDisjoint (MarsAx3.bindingPins (MarsAx3._io.getD 7 default))
      (MarsAx3.bindingPins (MarsAx3._io.getD 8 default)) = false ∧
    "L13" ∈ MarsAx3.bindingPins (MarsAx3._io.getD 7 default) ∧
    "L13" ∈ MarsAx3.bindingPins (MarsAx3._io.getD 8 default) := by
  exact ⟨by decide, by decide, by decide, by decide, by decide, by decide⟩

/-- C9 (amended): any two distinct bindings of the `_io` table use
disjoint pin-location sets, except for the pair `spiflash_4x` (entry 7)
and `spiflash_1x` (entry 8), which are two access-width views of the
same physical flash pins. -/
theorem C9_amended_pins_disjoint (i j : Nat) (hi : i < MarsAx3._io.length)
    (hj : j < MarsAx3._io.length) (hij : i < j) (hex : ¬(i = 7 ∧ j = 8)) :
    MarsAx3.pinsDisjoint (MarsAx3.bindingPins (MarsAx3._io.getD i default))
      (MarsAx3.bindingPins (MarsAx3._io.getD j default)) = true := by
  have hlen : MarsAx3._io.length = 10 := by decide
  rw [hlen] at hi hj
  have H : ∀ a b : Fin 10, a.val < b.val → ¬(a.val = 7 ∧ b.val = 8) →
      MarsAx3.pinsDisjoint (MarsAx3.bindingPins (MarsAx3._io.getD a.val default))
        (MarsAx3.bindingPins (MarsAx3._io.getD b.val default)) = true := by decide
  exact H ⟨i, hi⟩ ⟨j, hj⟩ hij hex

/-- C9 witness: the amended disjointness theorem at entries 0 and 1
(`user_led` 0 and `user_led` 1). -/
theorem C9_witness :
    MarsAx3.pinsDisjoint (MarsAx3.bindingPins (MarsAx3._io.getD 0 default))
      (MarsAx3.bindingPins (MarsAx3._io.getD 1 default)) = true :=
  C9_amended_pins_disjoint 0 1 (by decide) (by decide) (by decide) (by decide)

namespace Net

theorem dropLast_append_last_getElem? (l : List Int) (last : Int) (i : Nat)
    (hi : i + 1 < l.length) :
    (l.dropLast ++ [last])[i]? = l[i]? := by
  rw [List.getElem?_append_left (by simp [List.length_dropLast]; omega)]
  rw [List.getElem?_dropLast]
  simp only [if_pos (by omega : i < l.length - 1)]

end Net

/-- C10: `configure_iprange` range-checks nothing — whenever every
dot-separated component parses as an integer the call succeeds, whatever
the values (negative, above 255, …); the non-final components are
emitted unmodified as the values of the corresponding `LOCALIP`/`REMOTEIP`
constants; and an input with more than four components is neither padded
nor truncated: one constant per octet of each derived address, hence
more than 8 constants. -/
theorem C10_no_range_check (s : String) (vals : List Int)
    (hv : Py.intList (Py.split '.' s) = some vals) :
    Net.configure_iprange s = some (Net.emitted vals) ∧
    (Net.emitted vals).length = 2 * max vals.length 4 ∧
    (4 < vals.length → (Net.emitted vals).length = 2 * vals.length ∧
      8 < (Net.emitted vals).length) ∧
    ∀ i v, i + 1 < vals.length → vals[i]? = some v →
      (Net.emitted vals)[i]? = some (Py.upper ("LOCALIP" ++ toString (i + 1)), v) ∧
      (Net.emitted vals)[max vals.length 4 + i]? =
        some (Py.upper ("REMOTEIP" ++ toString (i + 1)), v) := by
  have hpadlen : (Net.padTo4 vals).length = max vals.length 4 := Net.length_padTo4 vals
  have hhalf : ∀ last : Int, ((Net.padTo4 vals).dropLast ++ [last]).length =
      max vals.length 4 := by
    intro last
    simp only [List.length_append, List.length_dropLast, hpadlen, List.length_cons,
      List.length_nil]
    omega
  have hemlen : (Net.emitted vals).length = 2 * max vals.length 4 := by
    simp only [Net.emitted, Net._configure_ip, List.length_append,
      Net.configure_ip_go_length, hhalf]
    omega
  have hpadget : ∀ i, i < vals.length → (Net.padTo4 vals)[i]? = vals[i]? := by
    intro i hi
    rw [Net.padTo4_eq, List.getElem?_append_left hi]
  have hlastget : ∀ (last : Int) i, i + 1 < vals.length →
      ((Net.padTo4 vals).dropLast ++ [last])[i]? = vals[i]? := by
    intro last i hi
    rw [Net.dropLast_append_last_getElem? _ _ _ (by omega : i + 1 < (Net.padTo4 vals).length)]
    exact hpadget i (by omega)
  refine ⟨?_, hemlen, ?_, ?_⟩
  · unfold Net.configure_iprange
    rw [hv]
  · intro h5
    constructor
    · rw [hemlen]
      omega
    · rw [hemlen]
      omega
  · intro i v hi hvi
    have hlen50 : (Net._configure_ip "LOCALIP"
        ((Net.padTo4 vals).dropLast ++ [50])).length = max vals.length 4 := by
      rw [Net._configure_ip, Net.configure_ip_go_length, hhalf]
    constructor
    · have hb1 : i < (Net._configure_ip "LOCALIP"
          ((Net.padTo4 vals).dropLast ++ [50])).length := by
        rw [hlen50]
        omega
      rw [Net.emitted, List.getElem?_append_left hb1]
      rw [Net._configure_ip, Net.configure_ip_go_getElem?, hlastget 50 i hi, hvi]
      simp
    · have hb2 : (Net._configure_ip "LOCALIP"
          ((Net.padTo4 vals).dropLast ++ [50])).length ≤ max vals.length 4 + i := by
        rw [hlen50]
        omega
      rw [Net.emitted, List.getElem?_append_right hb2, hlen50]
      have hsub : max vals.length 4 + i - max vals.length 4 = i := by omega
      rw [hsub, Net._configure_ip, Net.configure_ip_go_getElem?, hlastget 100 i hi, hvi]
      simp

/-- C10 witness: the no-validation theorem at `"300.-1.2.3.4"` — five
components, one negative and one above 255: the call succeeds, the
first component is emitted unmodified as `LOCALIP1`/`REMOTEIP1`, and 10
constants are produced. -/
theorem C10_witness :
    Net.configure_iprange "300.-1.2.3.4" =
      some (Net.emitted [300, -1, 2, 3, 4]) ∧
    (Net.emitted [300, -1, 2, 3, 4]).length = 2 * max ([300, -1, 2, 3, 4] : List Int).length 4 ∧
    ((4 : Nat) < ([300, -1, 2, 3, 4] : List Int).length →
      (Net.emitted [300, -1, 2, 3, 4]).length = 2 * ([300, -1, 2, 3, 4] : List Int).length ∧
      8 < (Net.emitted [300, -1, 2, 3, 4]).length) ∧
    ∀ i v, i + 1 < ([300, -1, 2, 3, 4] : List Int).length →
      ([300, -1, 2, 3, 4] : List Int)[i]? = some v →
      (Net.emitted [300, -1, 2, 3, 4])[i]? =
        some (Py.upper ("LOCALIP" ++ toString (i + 1)), v) ∧
      (Net.emitted [300, -1, 2, 3, 4])[max ([300, -1, 2, 3, 4] : List Int).length 4 + i]? =
        some (Py.upper ("REMOTEIP" ++ toString (i + 1)), v) :=
  C10_no_range_check "300.-1.2.3.4" [300, -1, 2, 3, 4] (by decide)
